import Mathlib

/-
Verification of the smart-query ReAct agent core against its specification.

The embedding below follows the Python sources:
  * src/ai-agent/src/react_agent/graph.py        (call_model, route_model_output, graph wiring)
  * src/ai-agent/src/react_agent/postgree_sql_tools.py
  * src/ai-agent/src/react_agent/main.py         (invoke_agent, generate_chunks)
  * src/ai-agent/src/react_agent/configuration.py
  * src/src/react_agent/graph.py                 (older variant of call_model)

External collaborators (the language model, psycopg2 connections, the LangGraph
runtime) are modelled as oracle parameters; a definition whose doc comment
starts with "Modelled from the spec:" embeds behaviour that lives outside the
sources (framework code), following the specification text.
-/

namespace SmartQuery

/-- Message roles, standing for the LangChain message classes
(HumanMessage, AIMessage, SystemMessage, ToolMessage). -/
inductive Role where
  | user
  | assistant
  | system
  | tool
deriving DecidableEq, Repr

/-- One tool-call request carried by an assistant message: a tool name and
its (string-encoded) arguments. -/
structure ToolCall where
  name : String
  args : List (String × String)
deriving DecidableEq, Repr

/-- A chat message: role, textual content (the `str` branch of the content
union), a unique identifier, and the tool-call requests (empty unless the
message is an assistant message that requests tools). -/
structure Message where
  role : Role
  content : String
  id : Nat
  tool_calls : List ToolCall
deriving DecidableEq, Repr

/-! ## call_model: context window and history trimming
(src/ai-agent/src/react_agent/graph.py, lines 30-52) -/

/-- From call_model: the context built for the LLM — the system message
followed by the last 6 history messages when at least 6 are available,
otherwise the whole history (`state.messages[-6:]` is `drop (len - 6)`). -/
def messages_to_send (system_message : Message) (messages : List Message) : List Message :=
  if messages.length ≥ 6 then
    [system_message] ++ messages.drop (messages.length - 6)
  else
    [system_message] ++ messages

/-- From call_model: the RemoveMessage identifiers computed by the trimming
step. With `new_history = messages ++ [response]`, when more than 6 messages
are present the messages `new_history[:-6]` are marked for removal by id. -/
def call_model_delete_ids (messages : List Message) (response : Message) : List Nat :=
  let new_history := messages ++ [response]
  if new_history.length > 6 then
    (new_history.take (new_history.length - 6)).map Message.id
  else
    []

/-- Modelled from the spec: the `add_messages` reducer that applies the
returned update `[response] + delete_messages` to the stored state is
LangGraph framework code, not under src. Per the spec ("Eviction is expressed
as explicit removal markers referencing the identifier of each evicted message, so
that a downstream persistent store can apply tombstones"), it appends the
response and then drops every message whose identifier is marked. -/
def apply_messages_update (messages : List Message) (response : Message)
    (delete_ids : List Nat) : List Message :=
  (messages ++ [response]).filter (fun m => decide (m.id ∉ delete_ids))

/-- Conversation state reached after one call_model update is applied. -/
def call_model_state (messages : List Message) (response : Message) : List Message :=
  apply_messages_update messages response (call_model_delete_ids messages response)

/-! ### Helper lemmas about the trimming step -/

/-- Filtering out exactly the identifiers of a prefix keeps exactly the
suffix, provided identifiers are unique. -/
theorem filter_out_id_pre (a b : List Message)
    (hnd : ((a ++ b).map Message.id).Nodup) :
    (a ++ b).filter (fun m => decide (m.id ∉ a.map Message.id)) = b := by
  rw [List.filter_append]
  rw [List.map_append] at hnd
  have hdisj := List.disjoint_of_nodup_append hnd
  have ha : a.filter (fun m => decide (m.id ∉ a.map Message.id)) = [] := by
    rw [List.filter_eq_nil_iff]
    intro m hm
    simp only [decide_eq_true_eq, not_not, Decidable.not_not]
    exact List.mem_map_of_mem Message.id hm
  have hb : b.filter (fun m => decide (m.id ∉ a.map Message.id)) = b := by
    rw [List.filter_eq_self]
    intro m hm
    simp only [decide_eq_true_eq]
    intro hmem
    exact hdisj hmem (List.mem_map_of_mem Message.id hm)
  rw [ha, hb, List.nil_append]

/-- The delete identifiers are always the identifiers of the prefix of
length `len - 6` of the candidate history (that prefix is empty when the
candidate has at most 6 messages). -/
theorem call_model_delete_ids_eq (h : List Message) (r : Message) :
    call_model_delete_ids h r
      = ((h ++ [r]).take ((h ++ [r]).length - 6)).map Message.id := by
  unfold call_model_delete_ids
  by_cases h6 : (h ++ [r]).length > 6
  · simp [h6]
    omega
  · have hz : (h ++ [r]).length - 6 = 0 := by omega
    simp [h6, hz]
    omega

/-- Applying the update retains exactly the suffix of length 6 of
`history ++ [response]` (the whole candidate when it is shorter), provided
message identifiers are unique. -/
theorem call_model_retained_eq (h : List Message) (r : Message)
    (hnd : ((h ++ [r]).map Message.id).Nodup) :
    call_model_state h r = (h ++ [r]).drop ((h ++ [r]).length - 6) := by
  unfold call_model_state apply_messages_update
  rw [call_model_delete_ids_eq]
  set c : List Message := h ++ [r] with hc
  set k : Nat := c.length - 6 with hk
  have hsplit : c.take k ++ c.drop k = c := List.take_append_drop k c
  have hnd2 : ((c.take k ++ c.drop k).map Message.id).Nodup := by
    rw [hsplit]; exact hnd
  have := filter_out_id_pre (c.take k) (c.drop k) hnd2
  rw [hsplit] at this
  exact this

/-! ## Routing (src/ai-agent/src/react_agent/graph.py, route_model_output) -/

/-- Error message raised when the last message is not an AIMessage. The
source interpolates the received type name; the embedding keeps one text. -/
def role_err_msg : String := "Expected AIMessage, but received another message type"

/-- From route_model_output: inspect the last message of the state; raise
(ValueError) unless it is an assistant message; route to the tools node when
it carries tool calls and to the terminal node otherwise. An empty state
would raise an IndexError at `state.messages[-1]`. -/
def route_model_output (messages : List Message) : Except String String :=
  match messages.getLast? with
  | none => Except.error "IndexError: list index out of range"
  | some last_message =>
    if last_message.role ≠ Role.assistant then
      Except.error role_err_msg
    else if last_message.tool_calls ≠ [] then
      Except.ok "tools"
    else
      Except.ok "__end__"

/-! ## Claim C1 and C4 theorems -/

/-- C1: for every message history h and model response r, the history
trimming inside call_model retains exactly the last 6 messages of h ++ [r]
in original order (the whole candidate when it has at most 6 messages), and
the eviction markers reference by identifier exactly the prefix of length
len(h)+1-6, with no markers when len(h)+1 ≤ 6. Stated under unique message
identifiers, which the surrounding system guarantees. -/
theorem call_model_trim_spec (h : List Message) (r : Message)
    (hnd : ((h ++ [r]).map Message.id).Nodup) :
    call_model_state h r = (h ++ [r]).drop ((h ++ [r]).length - 6)
    ∧ call_model_delete_ids h r
        = ((h ++ [r]).take ((h ++ [r]).length - 6)).map Message.id
    ∧ ((h ++ [r]).length ≤ 6 → call_model_delete_ids h r = []) := by
  refine ⟨call_model_retained_eq h r hnd, call_model_delete_ids_eq h r, ?_⟩
  intro hle
  have h6 : ¬ ((h ++ [r]).length > 6) := by omega
  have hle2 : h.length + 1 ≤ 6 := by
    simpa [List.length_append] using hle
  simp [call_model_delete_ids, h6]
  omega

/-- Concrete history of seven user messages with identifiers 0..6. -/
def w_history : List Message :=
  (List.range 7).map (fun n => ⟨Role.user, "m", n, []⟩)

/-- Concrete model response with a fresh identifier. -/
def w_resp : Message := ⟨Role.assistant, "answer", 7, []⟩

/-- Witness for call_model_trim_spec at a concrete 7-message history. -/
theorem call_model_trim_spec_witness :
    ((w_history ++ [w_resp]).map Message.id).Nodup
    ∧ (call_model_state w_history w_resp
          = (w_history ++ [w_resp]).drop ((w_history ++ [w_resp]).length - 6)
        ∧ call_model_delete_ids w_history w_resp
            = ((w_history ++ [w_resp]).take ((w_history ++ [w_resp]).length - 6)).map Message.id
        ∧ ((w_history ++ [w_resp]).length ≤ 6 →
            call_model_delete_ids w_history w_resp = [])) :=
  ⟨by decide, call_model_trim_spec w_history w_resp (by decide)⟩

/-- C4: call_model sends exactly one freshly constructed system message
followed by the last min(6, len) history messages in original order (the
full history when it is shorter than 6 messages). -/
theorem messages_to_send_spec (s : Message) (msgs : List Message) :
    messages_to_send s msgs = s :: msgs.drop (msgs.length - 6)
    ∧ (msgs.drop (msgs.length - 6)).length = min 6 msgs.length := by
  constructor
  · unfold messages_to_send
    by_cases h6 : msgs.length ≥ 6
    · simp [h6]
    · have hz : msgs.length - 6 = 0 := by omega
      simp [h6, hz]
  · rw [List.length_drop]
    omega

/-! ## Claim C2 theorem -/

/-- C2: the routing decision is a pure function of the most recent message:
for every non-empty state, an assistant message with tool calls routes to
the tools node, an assistant message without tool calls terminates the turn,
and any other role raises a fatal error. -/
theorem route_model_output_spec (msgs : List Message) (hne : msgs ≠ []) :
    ((msgs.getLast hne).role = Role.assistant ∧ (msgs.getLast hne).tool_calls ≠ [] →
        route_model_output msgs = Except.ok "tools")
    ∧ ((msgs.getLast hne).role = Role.assistant ∧ (msgs.getLast hne).tool_calls = [] →
        route_model_output msgs = Except.ok "__end__")
    ∧ ((msgs.getLast hne).role ≠ Role.assistant →
        route_model_output msgs = Except.error role_err_msg)
    ∧ (∀ (msgs2 : List Message) (hne2 : msgs2 ≠ []),
        msgs2.getLast hne2 = msgs.getLast hne →
        route_model_output msgs2 = route_model_output msgs) := by
  have hlast : msgs.getLast? = some (msgs.getLast hne) := List.getLast?_eq_getLast msgs hne
  refine ⟨?_, ?_, ?_, ?_⟩
  · rintro ⟨hrole, htc⟩
    unfold route_model_output
    rw [hlast]
    simp [hrole, htc]
  · rintro ⟨hrole, htc⟩
    unfold route_model_output
    rw [hlast]
    simp [hrole, htc]
  · intro hrole
    unfold route_model_output
    rw [hlast]
    simp [hrole]
  · intro msgs2 hne2 heq
    have hlast2 : msgs2.getLast? = some (msgs2.getLast hne2) :=
      List.getLast?_eq_getLast msgs2 hne2
    unfold route_model_output
    rw [hlast, hlast2, heq]

/-- Concrete assistant message requesting one tool call. -/
def w_route_msg : Message :=
  ⟨Role.assistant, "calling a tool", 0, [⟨"execute_sql_query_tool", [("query", "SELECT 1")]⟩]⟩

/-- Witness for route_model_output_spec at a concrete one-message state. -/
theorem route_model_output_spec_witness :
    ([w_route_msg] ≠ [] ∧ route_model_output [w_route_msg] = Except.ok "tools") :=
  ⟨by decide,
   (route_model_output_spec [w_route_msg] (by decide)).1 ⟨by decide, by decide⟩⟩

/-! ## Claim C3: window size across a whole turn -/

/-- Modelled from the spec: the tools node is the prebuilt LangGraph
ToolNode (framework code, not under src). Per the spec ("Append one
tool-result message per call to the conversation state, tagged with the
originating call identifier"), it appends the tool-result messages to the
state and performs no trimming of its own. -/
def tool_node_append (messages : List Message) (tool_results : List Message) :
    List Message :=
  messages ++ tool_results

/-- Trace of the conversation states reached after each state update within
one turn, following the graph edges of graph.py (__start__ → call_model;
call_model → tools when the response carries tool calls, else __end__;
tools → call_model). The script supplies, for each model call, the model
response and the tool-result messages the tools node appends for it. -/
def turn_trace (h : List Message) :
    List (Message × List Message) → List (List Message)
  | [] => []
  | (r, tool_results) :: rest =>
    let s1 := call_model_state h r
    if r.tool_calls = [] then
      [s1]
    else
      s1 :: tool_node_append s1 tool_results
         :: turn_trace (tool_node_append s1 tool_results) rest

/-- Concrete five-message history (identifiers 0..4). -/
def cx_history : List Message :=
  (List.range 5).map (fun n => ⟨Role.user, "m", n, []⟩)

/-- Concrete assistant response requesting two tool calls. -/
def cx_assistant : Message :=
  ⟨Role.assistant, "need data", 5,
    [⟨"list_tables_tool", []⟩, ⟨"execute_sql_query_tool", [("query", "SELECT 1")]⟩]⟩

/-- Concrete tool-result messages, one per requested call. -/
def cx_tool_results : List Message :=
  [⟨Role.tool, "tables", 6, []⟩, ⟨Role.tool, "rows", 7, []⟩]

/-- Concrete final assistant response without tool calls. -/
def cx_final : Message := ⟨Role.assistant, "here is the answer", 8, []⟩

/-- Counterexample to C3: in a concrete turn, the state reached right after
the tool-execution append has 8 messages, exceeding the 6-message window;
the trimming runs only inside call_model, so the bound does not hold after
every update within a turn. -/
theorem turn_trace_window_exceeded :
    (turn_trace cx_history
        [(cx_assistant, cx_tool_results), (cx_final, [])]).map List.length
      = [6, 8, 6]
    ∧ ¬ (∀ s ∈ turn_trace cx_history
          [(cx_assistant, cx_tool_results), (cx_final, [])], s.length ≤ 6) := by
  decide

/-- C3 amended: after each model-call update the retained window has length
at most 6 and only the oldest excess entries are marked for removal — the
newest message is never marked; immediately after the tool-execution phase
appends its results, however, the state may exceed 6 messages until the next
model call trims it. This theorem proves the model-call part. -/
theorem call_model_window_invariant (h : List Message) (r : Message)
    (hnd : ((h ++ [r]).map Message.id).Nodup) :
    (call_model_state h r).length ≤ 6
    ∧ call_model_delete_ids h r
        = ((h ++ [r]).take ((h ++ [r]).length - 6)).map Message.id
    ∧ r.id ∉ call_model_delete_ids h r := by
  refine ⟨?_, call_model_delete_ids_eq h r, ?_⟩
  · rw [call_model_retained_eq h r hnd, List.length_drop]
    omega
  · rw [call_model_delete_ids_eq]
    intro hmem
    rw [List.map_append] at hnd
    have hdisj := List.disjoint_of_nodup_append hnd
    have hrid : r.id ∉ h.map Message.id := by
      intro hin
      exact hdisj hin (by simp)
    have hk : (h ++ [r]).length - 6 ≤ h.length := by
      rw [List.length_append]
      simp
    rw [List.take_append_of_le_length hk] at hmem
    rcases List.mem_map.mp hmem with ⟨m, hm, hid⟩
    exact hrid (List.mem_map.mpr ⟨m, List.take_subset _ _ hm, hid⟩)

/-- Concrete six-message history (identifiers 10..15). -/
def cx_w3_history : List Message :=
  (List.range 6).map (fun n => ⟨Role.user, "w", n + 10, []⟩)

/-- Concrete model response with a fresh identifier. -/
def cx_w3_resp : Message := ⟨Role.assistant, "final", 16, []⟩

/-- Witness for call_model_window_invariant at a concrete 7-message
candidate. -/
theorem call_model_window_invariant_witness :
    ((cx_w3_history ++ [cx_w3_resp]).map Message.id).Nodup
    ∧ ((call_model_state cx_w3_history cx_w3_resp).length ≤ 6
        ∧ call_model_delete_ids cx_w3_history cx_w3_resp
            = ((cx_w3_history ++ [cx_w3_resp]).take
                ((cx_w3_history ++ [cx_w3_resp]).length - 6)).map Message.id
        ∧ cx_w3_resp.id ∉ call_model_delete_ids cx_w3_history cx_w3_resp) :=
  ⟨by decide, call_model_window_invariant cx_w3_history cx_w3_resp (by decide)⟩

/-! ## Configuration and the system message (configuration.py, prompts.py,
call_model in both graph.py variants) -/

/-- Default system prompt template from prompts.py (verbatim; it contains
the two placeholder fields substituted by call_model). -/
def SYSTEM_PROMPT : String :=
  "Seu nome é Smart-Query. Você é um analista de dados de marketing.  \nUsuário: {user_name}\n\nContexto: Você tem acesso a um banco de dados. Seu objetivo é fornecer insights estratégicos e recomendações acionáveis com base nas minhas informações disponíveis.\n\nInstruções:\n1. Analise a solicitação do usuário e identifique os dados relevantes.\n2. Gere análises e recomendações estratégicas com base nos dados.\n3. Garanta que as consultas sejam eficientes, aplicando boas práticas de otimização.\n4. Oriente o usuário sobre filtros caso o volume de dados seja grande.\n5. Utilize a knowledge base da empresa para fornecer informações relevantes.\n\nProcesso para consultas aos dados:\n1. Verifique as tabelas disponíveis para identificar onde os dados solicitados estão armazenados.\n2. Obtenha as colunas das tabelas relevantes para garantir que a query seja precisa e contemple os campos corretos.\n3. Gere uma consulta SQL otimizada, garantindo que apenas operações de leitura sejam executadas.\n4. Somente após essas etapas, execute a query para obter os dados e apresentar a resposta ao usuário.\n\nRegras:\n- Você é um analista de dados em contexto, não mencione banco de dados ou SQL.\n- Não revele ferramentas ou processos internos.\n- Responda apenas perguntas dentro do escopo de análise de dados.\n- Mantenha a confidencialidade e segurança dos dados.\n\nSystem time: {system_time}"

/-- Per-turn configuration (configuration.py), restricted to the fields the
embedded operations read. The model identifier, search limit, index host,
namespace and PostgreSQL credentials are consumed only by the external
collaborators (model client, knowledge-base client, psycopg2 connection),
which the embedding passes as oracles, so they are not repeated here. -/
structure Configuration where
  system_prompt : String := SYSTEM_PROMPT
  user_name : Option String := none
  database_schema : Option String := none
deriving DecidableEq, Repr

/-- Python truthiness test `not value` on an optional string: None and the
empty string are falsy. -/
def falsy_str (o : Option String) : Bool :=
  match o with
  | none => true
  | some s => s = ""

/-- Python `value or fallback` on an optional string: the fallback is used
when the value is None or empty. -/
def py_or (o : Option String) (fallback : String) : String :=
  match o with
  | none => fallback
  | some s => if s = "" then fallback else s

/-- Replace every occurrence of `pat` in the character list, left to right
and without overlapping, by `repl`. The fuel argument (instantiated with the
length of the list) keeps the recursion structural so that proofs can
evaluate it. -/
def replace_fuel (pat repl : List Char) : Nat → List Char → List Char
  | _, [] => []
  | 0, s => s
  | Nat.succ fuel, c :: rest =>
    if pat.isPrefixOf (c :: rest) then
      repl ++ replace_fuel pat repl fuel (List.drop (pat.length - 1) rest)
    else
      c :: replace_fuel pat repl fuel rest

/-- String replacement built on replace_fuel. -/
def str_replace (s pat repl : String) : String :=
  ⟨replace_fuel pat.data repl.data s.data.length s.data⟩

/-- Python str.format restricted to the two named fields used by the prompt
templates: substitutes {system_time} and {user_name}. -/
def format2 (template system_time user_name : String) : String :=
  str_replace (str_replace template "{system_time}" system_time) "{user_name}" user_name

/-- From call_model in src/ai-agent/src/react_agent/graph.py: the content of
the freshly constructed system message, with the "Unknown User" fallback. -/
def system_message_content (cfg : Configuration) (now : String) : String :=
  format2 cfg.system_prompt now (py_or cfg.user_name "Unknown User")

/-- From call_model in src/src/react_agent/graph.py (the older variant):
identical except that the fallback user name is "Usuário Desconhecido". -/
def system_message_content_src_variant (cfg : Configuration) (now : String) : String :=
  format2 cfg.system_prompt now (py_or cfg.user_name "Usuário Desconhecido")

/-- Counterexample to C7: the claim requires the "Unknown User" sentinel in
every variant of the agent, but the call_model variant under
src/src/react_agent/graph.py substitutes "Usuário Desconhecido" when no user
name is provided, which differs from substituting "Unknown User". -/
theorem src_variant_not_unknown_user :
    system_message_content_src_variant
        ⟨"Usuário: {user_name}", none, none⟩ "2024-01-01T00:00:00+00:00"
      ≠ format2 "Usuário: {user_name}" "2024-01-01T00:00:00+00:00" "Unknown User"
    ∧ system_message_content_src_variant
        ⟨"Usuário: {user_name}", none, none⟩ "2024-01-01T00:00:00+00:00"
      = "Usuário: Usuário Desconhecido" := by
  decide

/-- C7 amended: whenever no user name is provided, the ai-agent variant of
call_model substitutes the literal "Unknown User" into the user-name field
of the prompt template, while the older src variant substitutes the literal
"Usuário Desconhecido". -/
theorem unknown_user_fallback (tpl now : String) :
    system_message_content ⟨tpl, none, none⟩ now = format2 tpl now "Unknown User"
    ∧ system_message_content_src_variant ⟨tpl, none, none⟩ now
        = format2 tpl now "Usuário Desconhecido" :=
  ⟨rfl, rfl⟩

/-! ## PostgreSQL tools (src/ai-agent/src/react_agent/postgree_sql_tools.py) -/

/-- One row of an information_schema.columns answer:
(column_name, data_type, is_nullable). -/
def Column : Type := String × String × String

/-- One result row of an arbitrary query, as a field-name/value mapping. -/
def Row : Type := List (String × String)

/-- Error message raised by the three SQL tools when the per-turn
database_schema setting is missing (apostrophes of the source text elided). -/
def schema_required_msg : String :=
  "Configuration database_schema is required but was not provided."

/-- Error message raised by validate_query for a forbidden keyword
(apostrophes of the source text elided). -/
def keyword_err_msg (keyword : String) : String :=
  "Queries containing " ++ keyword ++ " are not allowed."

/-- The prohibited keywords of validate_query, in source order. -/
def forbidden_keywords : List String :=
  ["insert", "update", "delete", "drop", "alter", "truncate", "create"]

/-- Python \w for the ASCII range: letters, digits and underscore. (The
source patterns and keywords are pure ASCII; Python would additionally count
non-ASCII alphanumerics as word characters.) -/
def is_word_char (c : Char) : Bool := c.isAlphanum || c = '_'

/-- Case-insensitive match of `kw` against a front segment of `s`; returns
the remainder of `s` after the matched segment. -/
def ci_rest : List Char → List Char → Option (List Char)
  | [], s => some s
  | _ :: _, [] => none
  | k :: ks, c :: cs => if k.toLower = c.toLower then ci_rest ks cs else none

/-- Left word-boundary test: start of string, or previous character not a
word character. -/
def boundary_l (prev : Option Char) : Bool :=
  match prev with
  | none => true
  | some p => !is_word_char p

/-- Right word-boundary test: end of string, or next character not a word
character. -/
def boundary_r : List Char → Bool
  | [] => true
  | c :: _ => !is_word_char c

/-- Whether the regex \b kw \b matches at the current position, given the
preceding character. -/
def word_match_at (kw s : List Char) (prev : Option Char) : Bool :=
  boundary_l prev &&
    (match ci_rest kw s with
     | none => false
     | some rest => boundary_r rest)

/-- Whether \b kw \b matches at some position of the remaining input, given
the preceding character. -/
def contains_word_aux (kw : List Char) : Option Char → List Char → Bool
  | _, [] => false
  | prev, c :: cs => word_match_at kw (c :: cs) prev || contains_word_aux kw (some c) cs

/-- Whether `re.search(r"\b" + kw + r"\b", query, re.IGNORECASE)` finds a
match. -/
def contains_word (kw query : String) : Bool :=
  contains_word_aux kw.data none query.data

/-- From validate_query: raise ValueError at the first prohibited keyword
found in the query (whole-word, case-insensitive), in list order. -/
def validate_query (query : String) : Except String Unit :=
  match forbidden_keywords.find? (fun kw => contains_word kw query) with
  | some kw => Except.error (keyword_err_msg kw)
  | none => Except.ok ()

/-- From _execute_sql_query: validate the query first; only then connect and
execute. The established connection and the cursor work (SET search_path,
execute, fetchall) are the external psycopg2 collaborator, modelled by the
`db` oracle taking the schema and the query. -/
def _execute_sql_query (query schema : String) (db : String → String → List Row) :
    Except String (List Row) :=
  match validate_query query with
  | Except.error e => Except.error e
  | Except.ok _ => Except.ok (db schema query)

/-- From execute_sql_query_tool: check database_schema before anything else,
then delegate to _execute_sql_query. -/
def execute_sql_query_tool (cfg : Configuration) (query : String)
    (db : String → String → List Row) : Except String (List Row) :=
  if falsy_str cfg.database_schema then
    Except.error schema_required_msg
  else
    _execute_sql_query query (cfg.database_schema.getD "") db

/-- From _list_tables: query information_schema.tables for the schema; the
connection is the `db` oracle taking the schema. -/
def _list_tables (schema : String) (db : String → List String) : List String :=
  db schema

/-- From list_tables_tool: check database_schema before anything else, then
delegate to _list_tables. -/
def list_tables_tool (cfg : Configuration) (db : String → List String) :
    Except String (List String) :=
  if falsy_str cfg.database_schema then
    Except.error schema_required_msg
  else
    Except.ok (_list_tables (cfg.database_schema.getD "") db)

/-- The duck-typed `Union[str, List[str]]` parameter of
get_table_columns_tool. -/
inductive StrOrList where
  | str (s : String)
  | list (l : List String)
deriving DecidableEq, Repr

/-- From the GetTableColumnsParams pre-validator ensure_list: a single
string becomes a singleton list; a list is passed through unchanged. -/
def ensure_list : StrOrList → List String
  | StrOrList.str v => [v]
  | StrOrList.list v => v

/-- Validated parameters of get_table_columns_tool. -/
structure GetTableColumnsParams where
  table_names : List String
deriving DecidableEq, Repr

/-- Constructing GetTableColumnsParams runs the ensure_list validator on the
supplied table_names value. -/
def mk_get_table_columns_params (v : StrOrList) : GetTableColumnsParams :=
  ⟨ensure_list v⟩

/-- Python dict assignment `d[k] = v`: an existing key keeps its position
and gets the new value; a new key is appended. -/
def dict_set (d : List (String × List Column)) (k : String) (v : List Column) :
    List (String × List Column) :=
  if d.any (fun p => p.1 = k) then
    d.map (fun p => if p.1 = k then (k, v) else p)
  else
    d ++ [(k, v)]

/-- From _get_columns_for_tables: for each table in order, fetch its columns
on the open connection (the `db` oracle taking schema and table) and store
them under the table name. -/
def _get_columns_for_tables (params : GetTableColumnsParams) (schema : String)
    (db : String → String → List Column) : List (String × List Column) :=
  params.table_names.foldl (fun result t => dict_set result t (db schema t)) []

/-- From get_table_columns_tool: check database_schema before anything else,
validate the parameters, then delegate to _get_columns_for_tables. -/
def get_table_columns_tool (cfg : Configuration) (table_names : StrOrList)
    (db : String → String → List Column) :
    Except String (List (String × List Column)) :=
  if falsy_str cfg.database_schema then
    Except.error schema_required_msg
  else
    Except.ok (_get_columns_for_tables (mk_get_table_columns_params table_names)
      (cfg.database_schema.getD "") db)

/-! ## Claim C10 theorem -/

/-- C10: the GetTableColumnsParams validator turns a single string into the
singleton list and leaves a list unchanged, so get_table_columns_tool
behaves identically on a single table name and on the singleton list
containing that name (for every configuration and database oracle). -/
theorem get_table_columns_singleton (s : String) (l : List String)
    (cfg : Configuration) (db : String → String → List Column) :
    (mk_get_table_columns_params (StrOrList.str s)).table_names = [s]
    ∧ (mk_get_table_columns_params (StrOrList.list l)).table_names = l
    ∧ get_table_columns_tool cfg (StrOrList.str s) db
        = get_table_columns_tool cfg (StrOrList.list [s]) db :=
  ⟨rfl, rfl, rfl⟩

/-! ## Claim C5 theorem -/

/-- Modelled from the spec: the prebuilt ToolNode and the graph runner are
framework code, not under src. Per the spec ("`ConfigurationMissing` — a
required per-turn setting ... absent: fails the whole turn before any
tool/model call"; "everything else terminates the turn and is reported as a
single error response to the caller"), the error a SQL tool raises becomes
the turn outcome. -/
def turn_with_sql_tool (cfg : Configuration) (query : String)
    (db : String → String → List Row) : Except String (List Row) :=
  execute_sql_query_tool cfg query db

/-- C5: when the per-turn database_schema setting is absent, each of the
three SQL tools fails immediately with the ConfigurationMissing error, the
outcome does not depend on the database oracle (no connection is attempted:
the guard precedes psycopg2.connect in every tool), and the turn fails with
that error. -/
theorem configuration_missing_blocks_sql_tools (cfg : Configuration)
    (hcfg : cfg.database_schema = none) (query : String) (tns : StrOrList) :
    (∀ db, list_tables_tool cfg db = Except.error schema_required_msg)
    ∧ (∀ db, get_table_columns_tool cfg tns db = Except.error schema_required_msg)
    ∧ (∀ db, execute_sql_query_tool cfg query db = Except.error schema_required_msg)
    ∧ (∀ db, turn_with_sql_tool cfg query db = Except.error schema_required_msg) := by
  have hf : falsy_str cfg.database_schema = true := by
    rw [hcfg]; rfl
  refine ⟨?_, ?_, ?_, ?_⟩ <;>
    intro db <;>
    simp [list_tables_tool, get_table_columns_tool, execute_sql_query_tool,
      turn_with_sql_tool, hf]

/-- Concrete configuration without a database schema. -/
def cx_cfg_no_schema : Configuration := ⟨"prompt", some "Ana", none⟩

/-- Witness for configuration_missing_blocks_sql_tools at a concrete
configuration, query and table-name parameter. -/
theorem configuration_missing_blocks_sql_tools_witness :
    cx_cfg_no_schema.database_schema = none
    ∧ ((∀ db, list_tables_tool cx_cfg_no_schema db
          = Except.error schema_required_msg)
      ∧ (∀ db, get_table_columns_tool cx_cfg_no_schema (StrOrList.str "ads") db
          = Except.error schema_required_msg)
      ∧ (∀ db, execute_sql_query_tool cx_cfg_no_schema "SELECT 1" db
          = Except.error schema_required_msg)
      ∧ (∀ db, turn_with_sql_tool cx_cfg_no_schema "SELECT 1" db
          = Except.error schema_required_msg)) :=
  ⟨rfl, configuration_missing_blocks_sql_tools cx_cfg_no_schema rfl "SELECT 1"
    (StrOrList.str "ads")⟩

/-! ## Streaming (src/ai-agent/src/react_agent/main.py, generate_chunks) -/

/-- One event yielded by graph.astream_events, as far as generate_chunks
inspects it: the body runs only when the mapping contains a "messages" key
(`if event and "messages" in event`). -/
structure StreamEvent where
  messages : Option (List Message)
deriving DecidableEq, Repr

/-- How the underlying event stream ends: normally, or by raising an
exception with the given text (this also covers an exception raised inside
the loop body — the events field then holds the events already iterated). -/
inductive StreamOutcome where
  | ok
  | exn (msg : String)
deriving DecidableEq, Repr

/-- One server-sent-event chunk, `"data: " + content + two newlines`. -/
def sse_chunk (content : String) : String := "data: " ++ content ++ "\n\n"

/-- The chunk yielded for one event: nothing when the event carries no
"messages" key, otherwise the content of the last message. -/
def event_chunk (e : StreamEvent) : Option String :=
  match e.messages with
  | none => none
  | some ms =>
    match ms.getLast? with
    | none => none
    | some m => some (sse_chunk m.content)

/-- From generate_chunks: yield one chunk per message-carrying event; when
the stream raised, yield one error chunk; finally always yield the [DONE]
marker chunk. -/
def generate_chunks (events : List StreamEvent) (outcome : StreamOutcome) :
    List String :=
  events.filterMap event_chunk
    ++ (match outcome with
        | StreamOutcome.ok => []
        | StreamOutcome.exn msg => [sse_chunk ("Error: " ++ msg)])
    ++ [sse_chunk "[DONE]"]

/-- Concrete event whose last message content is the literal [DONE] text. -/
def cx_done_event : StreamEvent :=
  ⟨some [⟨Role.assistant, "[DONE]", 0, []⟩]⟩

/-- Counterexample to C6: when the content of a streamed message is the literal
[DONE] text, the marker chunk appears twice in the emitted sequence, so it
is not emitted exactly once. -/
theorem generate_chunks_done_twice :
    generate_chunks [cx_done_event] StreamOutcome.ok
      = [sse_chunk "[DONE]", sse_chunk "[DONE]"]
    ∧ (generate_chunks [cx_done_event] StreamOutcome.ok).count (sse_chunk "[DONE]")
        = 2 := by
  constructor
  · rfl
  · rfl

/-- The error chunk can never be the [DONE] marker chunk (their lengths
differ). -/
theorem error_chunk_ne_done (msg : String) :
    sse_chunk ("Error: " ++ msg) ≠ sse_chunk "[DONE]" := by
  intro h
  have hlen := congrArg String.length h
  simp only [sse_chunk, String.length_append] at hlen
  have h1 : "data: ".length = 6 := rfl
  have h2 : "Error: ".length = 7 := rfl
  have h3 : "[DONE]".length = 6 := rfl
  have h4 : "\n\n".length = 2 := rfl
  omega

/-- C6 amended: the emitted chunk sequence is finite and always ends with
the [DONE] marker chunk, on every path including a raising stream; the
marker occurs exactly once provided no data chunk produced from the events
coincides with it (which happens only when the content of a streamed message is
the literal [DONE] text). -/
theorem generate_chunks_terminated (events : List StreamEvent)
    (outcome : StreamOutcome)
    (hno : ∀ c ∈ events.filterMap event_chunk, c ≠ sse_chunk "[DONE]") :
    generate_chunks events outcome ≠ []
    ∧ (generate_chunks events outcome).getLast? = some (sse_chunk "[DONE]")
    ∧ (generate_chunks events outcome).count (sse_chunk "[DONE]") = 1 := by
  have hlast : (generate_chunks events outcome).getLast? = some (sse_chunk "[DONE]") := by
    unfold generate_chunks
    exact List.getLast?_concat _
  refine ⟨?_, hlast, ?_⟩
  · intro hnil
    rw [hnil] at hlast
    simp at hlast
  · unfold generate_chunks
    rw [List.count_append, List.count_append]
    have hA : (events.filterMap event_chunk).count (sse_chunk "[DONE]") = 0 := by
      rw [List.count_eq_zero]
      intro hmem
      exact hno _ hmem rfl
    have hB : (match outcome with
        | StreamOutcome.ok => ([] : List String)
        | StreamOutcome.exn msg => [sse_chunk ("Error: " ++ msg)]).count
          (sse_chunk "[DONE]") = 0 := by
      cases outcome with
      | ok => rfl
      | exn msg =>
        rw [List.count_eq_zero]
        intro hmem
        rcases List.mem_singleton.mp hmem with heq
        exact error_chunk_ne_done msg heq.symm
    rw [hA, hB]
    rfl

/-- Concrete ordinary event. -/
def cx_hello_event : StreamEvent :=
  ⟨some [⟨Role.assistant, "hello", 0, []⟩]⟩

/-- Witness for generate_chunks_terminated at a concrete event list and a
raising stream outcome. -/
theorem generate_chunks_terminated_witness :
    (∀ c ∈ [cx_hello_event].filterMap event_chunk, c ≠ sse_chunk "[DONE]")
    ∧ (generate_chunks [cx_hello_event] (StreamOutcome.exn "boom") ≠ []
      ∧ (generate_chunks [cx_hello_event] (StreamOutcome.exn "boom")).getLast?
          = some (sse_chunk "[DONE]")
      ∧ (generate_chunks [cx_hello_event] (StreamOutcome.exn "boom")).count
          (sse_chunk "[DONE]") = 1) :=
  ⟨by decide,
   generate_chunks_terminated [cx_hello_event] (StreamOutcome.exn "boom") (by decide)⟩

/-! ## Turn invocation (src/ai-agent/src/react_agent/main.py, invoke_agent) -/

/-- The FastAPI HTTPException raised on a failed graph invocation. -/
structure HTTPError where
  status_code : Nat
  detail : String
deriving DecidableEq, Repr

/-- The role string of a response message: "assistant" for an AIMessage and
"user" otherwise. -/
def response_role (m : Message) : String :=
  if m.role = Role.assistant then "assistant" else "user"

/-- From invoke_agent: the graph is invoked inside try/except with no loop
around it; `graph.ainvoke` is the external LangGraph runtime, modelled as an
oracle indexed by the attempt number, and only attempt 0 is ever consulted.
A raised exception becomes HTTPException(status_code=500, detail=str(e));
a successful state is mapped to (role, content) response messages. -/
def invoke_agent (graph_run : Nat → Except String (List Message)) :
    Except HTTPError (List (String × String)) :=
  match graph_run 0 with
  | Except.error e => Except.error ⟨500, e⟩
  | Except.ok msgs => Except.ok (msgs.map (fun m => (response_role m, m.content)))

/-- Modelled from the spec: the external caller of the HTTP API is not part
of this repository; per the spec ("propagates to the caller, which reports a
generic failure to the end user while logging detail server-side"), it turns
an error response into a generic end-user message plus a server-side log of
the detail. -/
def caller_report (resp : Except HTTPError (List (String × String))) :
    Option (String × String) :=
  match resp with
  | Except.error e => some ("Something went wrong. Please try again.", e.detail)
  | Except.ok _ => none

/-- C8: a model-provider or external-service failure raised during the graph
invocation is not retried internally — the outcome depends only on attempt 0
of the runtime oracle — and it is reported as a single 500 error response
carrying the failure detail, which the external caller (modelled from the
spec) presents as a generic failure while logging the detail server-side. -/
theorem upstream_failure_propagates
    (graph_run : Nat → Except String (List Message)) (e : String)
    (hfail : graph_run 0 = Except.error e) :
    invoke_agent graph_run = Except.error ⟨500, e⟩
    ∧ (∀ graph_run2 : Nat → Except String (List Message),
        graph_run2 0 = graph_run 0 → invoke_agent graph_run2 = invoke_agent graph_run)
    ∧ caller_report (invoke_agent graph_run)
        = some ("Something went wrong. Please try again.", e) := by
  have h1 : invoke_agent graph_run = Except.error ⟨500, e⟩ := by
    unfold invoke_agent
    rw [hfail]
  refine ⟨h1, ?_, ?_⟩
  · intro g2 hsame
    unfold invoke_agent
    rw [hsame]
  · rw [h1]
    rfl

/-- Concrete always-failing runtime oracle. -/
def cx_failing_run : Nat → Except String (List Message) :=
  fun _ => Except.error "rate limit exceeded"

/-- Witness for upstream_failure_propagates at a concrete failing oracle. -/
theorem upstream_failure_propagates_witness :
    cx_failing_run 0 = Except.error "rate limit exceeded"
    ∧ (invoke_agent cx_failing_run = Except.error ⟨500, "rate limit exceeded"⟩
      ∧ (∀ graph_run2 : Nat → Except String (List Message),
          graph_run2 0 = cx_failing_run 0 →
          invoke_agent graph_run2 = invoke_agent cx_failing_run)
      ∧ caller_report (invoke_agent cx_failing_run)
          = some ("Something went wrong. Please try again.", "rate limit exceeded")) :=
  ⟨rfl, upstream_failure_propagates cx_failing_run "rate limit exceeded" rfl⟩

/-! ## Claim C9: validate_query against a spec-level characterization -/

/-- Spec-level characterization of a whole-word, case-insensitive keyword
occurrence: the query splits as pre ++ mid ++ post where mid equals the
keyword up to case, the character before mid (if any) is not a word
character, and the character after mid (if any) is not a word character. -/
def SpecWordOccur (kw q : String) : Prop :=
  ∃ pre mid post : List Char,
    q.data = pre ++ mid ++ post
    ∧ mid.map Char.toLower = kw.data.map Char.toLower
    ∧ (∀ p, pre.getLast? = some p → is_word_char p = false)
    ∧ (∀ c, post.head? = some c → is_word_char c = false)

/-- Left-boundary condition threaded through the scan: the character left of
the current position is the last of `pre` when `pre` is non-empty and `prev`
otherwise. -/
def left_ok (prev : Option Char) (pre : List Char) : Prop :=
  match pre.getLast? with
  | some p => is_word_char p = false
  | none => boundary_l prev = true

/-- Successful ci_rest runs decompose the input. -/
theorem ci_rest_some (kw s rest : List Char) (h : ci_rest kw s = some rest) :
    ∃ mid, s = mid ++ rest ∧ mid.map Char.toLower = kw.map Char.toLower := by
  induction kw generalizing s with
  | nil =>
    simp [ci_rest] at h
    exact ⟨[], by rw [h, List.nil_append], rfl⟩
  | cons k ks ih =>
    cases s with
    | nil => simp [ci_rest] at h
    | cons c cs =>
      by_cases hc : k.toLower = c.toLower
      · simp only [ci_rest, if_pos hc] at h
        rcases ih cs h with ⟨mid, hcs, hmap⟩
        refine ⟨c :: mid, ?_, ?_⟩
        · rw [hcs]; rfl
        · simp [hmap, hc]
      · simp [ci_rest, hc] at h

/-- A case-insensitive front match makes ci_rest return the remainder. -/
theorem ci_rest_of_match (kw mid rest : List Char)
    (hmap : mid.map Char.toLower = kw.map Char.toLower) :
    ci_rest kw (mid ++ rest) = some rest := by
  induction kw generalizing mid with
  | nil =>
    have hmid : mid = [] := by
      cases mid with
      | nil => rfl
      | cons m ms => simp at hmap
    rw [hmid]
    rfl
  | cons k ks ih =>
    cases mid with
    | nil => simp at hmap
    | cons m ms =>
      rw [List.map_cons, List.map_cons] at hmap
      injection hmap with h1 h2
      show ci_rest (k :: ks) (m :: (ms ++ rest)) = some rest
      simp only [ci_rest]
      rw [if_pos h1.symm]
      exact ih ms h2

/-- Characterization of a boundary-delimited match at one position. -/
theorem word_match_at_iff (kw s : List Char) (prev : Option Char) :
    word_match_at kw s prev = true ↔
      (boundary_l prev = true
        ∧ ∃ mid post, s = mid ++ post
            ∧ mid.map Char.toLower = kw.map Char.toLower
            ∧ boundary_r post = true) := by
  unfold word_match_at
  rw [Bool.and_eq_true]
  constructor
  · rintro ⟨hb, hm⟩
    refine ⟨hb, ?_⟩
    cases hrest : ci_rest kw s with
    | none => rw [hrest] at hm; simp at hm
    | some rest =>
      rw [hrest] at hm
      rcases ci_rest_some kw s rest hrest with ⟨mid, hs, hmap⟩
      exact ⟨mid, rest, hs, hmap, hm⟩
  · rintro ⟨hb, mid, post, hs, hmap, hr⟩
    refine ⟨hb, ?_⟩
    rw [hs, ci_rest_of_match kw mid post hmap]
    exact hr

/-- Extending the scanned prefix by one character preserves the
left-boundary condition. -/
theorem left_ok_cons (prev : Option Char) (c : Char) (pre : List Char)
    (h : left_ok (some c) pre) : left_ok prev (c :: pre) := by
  cases pre with
  | nil =>
    have hc : is_word_char c = false := by
      have h2 : boundary_l (some c) = true := h
      simpa [boundary_l] using h2
    unfold left_ok
    simp [hc]
  | cons p ps =>
    unfold left_ok at h ⊢
    rw [List.getLast?_cons_cons]
    exact h

/-- Shrinking the scanned prefix by its head preserves the left-boundary
condition with the head as the new preceding character. -/
theorem left_ok_of_cons (prev : Option Char) (c : Char) (pre : List Char)
    (h : left_ok prev (c :: pre)) : left_ok (some c) pre := by
  cases pre with
  | nil =>
    have hc : is_word_char c = false := by
      have h2 := h
      unfold left_ok at h2
      simpa using h2
    unfold left_ok
    simpa [boundary_l] using hc
  | cons p ps =>
    unfold left_ok at h ⊢
    rw [List.getLast?_cons_cons] at h
    exact h

/-- Characterization of the whole scan: a match is found somewhere in the
remaining input iff the input decomposes around a boundary-delimited
occurrence of the keyword. -/
theorem contains_word_aux_iff (kw : List Char) (hk : kw ≠ []) (s : List Char)
    (prev : Option Char) :
    contains_word_aux kw prev s = true ↔
      ∃ pre mid post : List Char,
        s = pre ++ mid ++ post
        ∧ mid.map Char.toLower = kw.map Char.toLower
        ∧ left_ok prev pre
        ∧ boundary_r post = true := by
  induction s generalizing prev with
  | nil =>
    simp only [contains_word_aux]
    constructor
    · intro h
      exact absurd h (by simp)
    · rintro ⟨pre, mid, post, hs, hmap, _, _⟩
      rcases List.append_eq_nil.mp hs.symm with ⟨h12, hpost⟩
      rcases List.append_eq_nil.mp h12 with ⟨hpre, hmid⟩
      rw [hmid] at hmap
      exact (hk (List.map_eq_nil_iff.mp hmap.symm)).elim
  | cons c cs ih =>
    simp only [contains_word_aux, Bool.or_eq_true]
    constructor
    · rintro (hm | hrec)
      · rcases (word_match_at_iff kw (c :: cs) prev).mp hm with
          ⟨hb, mid, post, hs, hmap, hr⟩
        exact ⟨[], mid, post, by simpa using hs, hmap, hb, hr⟩
      · rcases (ih (some c)).mp hrec with ⟨pre, mid, post, hs, hmap, hl, hr⟩
        refine ⟨c :: pre, mid, post, ?_, hmap, left_ok_cons prev c pre hl, hr⟩
        rw [List.cons_append, List.cons_append, hs]
    · rintro ⟨pre, mid, post, hs, hmap, hl, hr⟩
      cases pre with
      | nil =>
        left
        apply (word_match_at_iff kw (c :: cs) prev).mpr
        exact ⟨hl, mid, post, by simpa using hs, hmap, hr⟩
      | cons p pre2 =>
        right
        have h2 : c :: cs = p :: (pre2 ++ mid ++ post) := hs
        injection h2 with h3 h4
        apply (ih (some c)).mpr
        refine ⟨pre2, mid, post, h4, hmap, ?_, hr⟩
        apply left_ok_of_cons prev c pre2
        rw [h3]
        exact hl

/-- The start-of-scan left-boundary condition matches the spec-level
formulation. -/
theorem left_ok_none_iff (pre : List Char) :
    left_ok none pre ↔ (∀ p, pre.getLast? = some p → is_word_char p = false) := by
  unfold left_ok
  cases hg : pre.getLast? with
  | none =>
    simp [boundary_l]
  | some p =>
    constructor
    · intro h p2 hp2
      injection hp2 with he
      rw [← he]
      exact h
    · intro h
      exact h p rfl

/-- The right-boundary condition matches the spec-level formulation. -/
theorem boundary_r_iff (post : List Char) :
    boundary_r post = true ↔ (∀ c, post.head? = some c → is_word_char c = false) := by
  cases post with
  | nil => simp [boundary_r]
  | cons c cs => simp [boundary_r]

/-- contains_word agrees with the spec-level occurrence predicate for any
non-empty keyword. -/
theorem contains_word_iff (kw q : String) (hk : kw.data ≠ []) :
    contains_word kw q = true ↔ SpecWordOccur kw q := by
  unfold contains_word SpecWordOccur
  rw [contains_word_aux_iff kw.data hk q.data none]
  constructor
  · rintro ⟨pre, mid, post, hs, hmap, hl, hr⟩
    exact ⟨pre, mid, post, hs, hmap, (left_ok_none_iff pre).mp hl,
      (boundary_r_iff post).mp hr⟩
  · rintro ⟨pre, mid, post, hs, hmap, hl, hr⟩
    exact ⟨pre, mid, post, hs, hmap, (left_ok_none_iff pre).mpr hl,
      (boundary_r_iff post).mpr hr⟩

/-- Every prohibited keyword is a non-empty string. -/
theorem forbidden_kw_ne_nil : ∀ kw ∈ forbidden_keywords, kw.data ≠ [] := by
  decide

/-- C9: validate_query raises a ValueError if and only if the query contains
at least one of the seven prohibited keywords as a whole word (word-boundary
match, case-insensitive); and whenever validate_query raises,
_execute_sql_query returns that error without consulting the database
oracle — validation occurs before psycopg2.connect. -/
theorem validate_query_spec (q : String) :
    ((∃ e, validate_query q = Except.error e)
      ↔ ∃ kw ∈ forbidden_keywords, SpecWordOccur kw q)
    ∧ (∀ e, validate_query q = Except.error e →
        ∀ (schema : String) (db db2 : String → String → List Row),
          _execute_sql_query q schema db = Except.error e
          ∧ _execute_sql_query q schema db = _execute_sql_query q schema db2) := by
  constructor
  · unfold validate_query
    cases hf : forbidden_keywords.find? (fun kw => contains_word kw q) with
    | some kw =>
      have hmem := List.mem_of_find?_eq_some hf
      have hp : contains_word kw q = true := by
        have := List.find?_some hf
        simpa using this
      constructor
      · intro _
        exact ⟨kw, hmem,
          (contains_word_iff kw q (forbidden_kw_ne_nil kw hmem)).mp hp⟩
      · intro _
        exact ⟨keyword_err_msg kw, rfl⟩
    | none =>
      constructor
      · rintro ⟨e, he⟩
        simp at he
      · rintro ⟨kw, hmem, hocc⟩
        have hp : contains_word kw q = true :=
          (contains_word_iff kw q (forbidden_kw_ne_nil kw hmem)).mpr hocc
        have hnone := List.find?_eq_none.mp hf kw hmem
        simp [hp] at hnone
  · intro e he schema db db2
    unfold _execute_sql_query
    rw [he]
    exact ⟨rfl, rfl⟩

/-- Witness for validate_query_spec at a concrete forbidden query and two
concrete database oracles. -/
theorem validate_query_spec_witness :
    validate_query "drop table users" = Except.error (keyword_err_msg "drop")
    ∧ (_execute_sql_query "drop table users" "public" (fun _ _ => [])
          = Except.error (keyword_err_msg "drop")
      ∧ _execute_sql_query "drop table users" "public" (fun _ _ => [])
          = _execute_sql_query "drop table users" "public"
              (fun _ _ => [[("count", "42")]])) :=
  ⟨rfl,
   (validate_query_spec "drop table users").2 (keyword_err_msg "drop") rfl
     "public" (fun _ _ => []) (fun _ _ => [[("count", "42")]])⟩
